import Mathlib

set_option maxHeartbeats 1000000
set_option linter.unusedVariables false

/-!
Verification development for the pyserde core module (serde/core.py):
a shallow embedding of the Python values and typing descriptors that the
module inspects, its structural instance checker, the tagging policy,
field metadata derivation, name mangling and the global union registry.

Fallible Python code is embedded with Option/Except: a returned `none`
(resp. `Except.error`) models the Python original raising an exception.
-/

/-- A Python runtime value, as far as the serde core inspects one.
A record (dataclass instance) carries the list of class names of its
type and its bases (the head is the value's own class), which is what
the embedded `isinstance` consults. -/
inductive PyValue where
  | none
  | bool (b : Bool)
  | int (n : Int)
  | str (s : String)
  | list (xs : List PyValue)
  | set (xs : List PyValue)
  | tuple (xs : List PyValue)
  | dict (kvs : List (PyValue × PyValue))
  | record (classNames : List String) (fields : List (String × PyValue))

/-- Modelled from Python language semantics: the class names a value is an
instance of. In CPython, `bool` is a subclass of `int`, which is why
`isinstance(True, int)` holds. -/
def classNamesOf : PyValue → List String
  | .none => [("NoneType")]
  | .bool _ => [("bool"), ("int")]
  | .int _ => [("int")]
  | .str _ => [("str")]
  | .list _ => [("list")]
  | .set _ => [("set")]
  | .tuple _ => [("tuple")]
  | .dict _ => [("dict")]
  | .record cs _ => cs

/-- Modelled from Python language semantics: `isinstance(obj, C)` for a
plain class given by its name. -/
def isinstancePrim (obj : PyValue) (cls : String) : Bool :=
  (classNamesOf obj).contains cls

/-- A type descriptor, the `typ` argument of serde.core.is_instance.
`dataclass` carries the optional synthesized typecheck function of the
type's registered Scope (`scope.funcs['typecheck']`); its Bool result
models "the call returned normally" while `false` models "the call
raised" (all exceptions there are caught by is_instance).
`list`/`set`/`dict` with `none` arguments are the bare, unsubscripted
containers; a tuple is bare when its argument list is empty and
variable-length when its last argument is the Ellipsis marker, exactly
how the typing module represents `Tuple[T, ...]`. -/
inductive Typ where
  | prim (name : String)
  | dataclass (name : String) (typecheck : Option (PyValue → Bool))
  | opt (t : Typ)
  | union (args : List Typ)
  | list (arg : Option Typ)
  | set (arg : Option Typ)
  | tuple (args : List Typ)
  | dict (kv : Option (Typ × Typ))
  | generic (origin : Typ)
  | literal (vals : List PyValue)
  | newtype (base : String)
  | ellipsis

/-- Modelled from the spec: the compat predicate `is_bare_tuple`
(a tuple type with no declared arguments). -/
def Typ.is_bare_tuple : Typ → Bool
  | .tuple args => args.isEmpty
  | _ => false

/-- Modelled from the spec: the compat predicate `is_variable_tuple`
(a tuple type `Tuple[T, ...]`, i.e. whose last argument is Ellipsis). -/
def Typ.is_variable_tuple : Typ → Bool
  | .tuple args =>
      !args.isEmpty &&
        (match args.getLast? with
         | some .ellipsis => true
         | _ => false)
  | _ => false

/-- Modelled from the spec: the compat extractor `type_args`, the list of
type arguments of a subscripted generic (`typing.get_args`). For
`Tuple[T, ...]` the typing module reports `(T, Ellipsis)`. -/
def Typ.type_args : Typ → List Typ
  | .opt t => [t]
  | .union args => args
  | .list (some t) => [t]
  | .set (some t) => [t]
  | .tuple args => args
  | .dict (some (k, v)) => [k, v]
  | _ => []

/-- Modelled from Python language semantics: `isinstance(obj, typ)` for a
class-like descriptor (a plain class or a dataclass). -/
def isinstanceB (obj : PyValue) : Typ → Bool
  | .prim n => isinstancePrim obj n
  | .dataclass n _ => isinstancePrim obj n
  | _ => false

/-- Modelled from Python language semantics: the test `obj is None`. -/
def PyValue.is_none : PyValue → Bool
  | .none => true
  | _ => false

theorem sizeOf_lt_of_getElemMem {xs : List PyValue} {i : Nat} {v : PyValue}
    (h : xs[i]? = some v) : sizeOf v < sizeOf xs := by
  induction xs generalizing i with
  | nil => simp at h
  | cons x tail ih =>
      cases i with
      | zero =>
          simp at h
          subst h
          simp
          omega
      | succ j =>
          simp at h
          have := ih h
          simp
          omega

mutual

/-- serde.core.is_instance: type check that works like `isinstance` but
accepts subscripted generics. Dispatches on the kind of the descriptor;
a `none` result models the Python original raising. -/
def is_instance (obj : PyValue) (typ : Typ) : Option Bool :=
  match typ with
  | .dataclass nm sc =>
      match sc with
      | some tc =>
          if tc obj then some (isinstanceB obj (.dataclass nm (some tc)))
          else some false
      | .none => some (isinstanceB obj (.dataclass nm Option.none))
  | .opt t => is_opt_instance obj (.opt t)
  | .union args => is_union_instance obj (.union args)
  | .list oarg => is_list_instance obj (.list oarg)
  | .set oarg => is_set_instance obj (.set oarg)
  | .tuple args => is_tuple_instance obj (.tuple args)
  | .dict okv => is_dict_instance obj (.dict okv)
  | .generic t => is_generic_instance obj (.generic t)
  | .literal _ => some true
  | .newtype base => some (isinstancePrim obj base)
  | .ellipsis => some true
  | .prim n => some (isinstanceB obj (.prim n))
  termination_by 4 * sizeOf typ + sizeOf obj + 3

/-- serde.core.is_opt_instance. -/
def is_opt_instance (obj : PyValue) (typ : Typ) : Option Bool :=
  if obj.is_none then some true
  else
    match typ with
    | .opt t => is_instance obj t
    | _ => none -- unreachable: type_args(typ)[0] would raise IndexError
  termination_by 4 * sizeOf typ + sizeOf obj + 2

/-- serde.core.is_union_instance: scan the type arguments in declaration
order, returning True at the first match. -/
def is_union_instance (obj : PyValue) (typ : Typ) : Option Bool :=
  match typ with
  | .union args => unionLoop obj args
  | _ => some false -- unreachable: the dispatcher guards is_union(typ)
  termination_by 4 * sizeOf typ + sizeOf obj + 2

/-- The loop of is_union_instance:
`for arg in type_args(typ): if is_instance(obj, arg): return True`. -/
def unionLoop (obj : PyValue) (ts : List Typ) : Option Bool :=
  match ts with
  | [] => some false
  | a :: rest =>
      match is_instance obj a with
      | some true => some true
      | some false => unionLoop obj rest
      | .none => none
  termination_by 4 * sizeOf ts + sizeOf obj + 1

/-- serde.core.is_list_instance: only the first element is checked. -/
def is_list_instance (obj : PyValue) (typ : Typ) : Option Bool :=
  match obj with
  | .list xs =>
      match typ with
      | .list oarg =>
          if xs.isEmpty || oarg.isNone then some true
          else
            match oarg, xs with
            | some arg, x :: _ => is_instance x arg
            | _, _ => none -- unreachable: the guard ensures an argument and a head
      | _ => some false
  | _ => some false
  termination_by 4 * sizeOf typ + sizeOf obj + 2

/-- serde.core.is_set_instance: only one sampled element is checked. -/
def is_set_instance (obj : PyValue) (typ : Typ) : Option Bool :=
  match obj with
  | .set xs =>
      match typ with
      | .set oarg =>
          if xs.isEmpty || oarg.isNone then some true
          else
            match oarg, xs with
            | some arg, x :: _ => is_instance x arg
            | _, _ => none -- unreachable: the guard ensures an argument and a head
      | _ => some false
  | _ => some false
  termination_by 4 * sizeOf typ + sizeOf obj + 2

/-- serde.core.is_tuple_instance. Mirrors the source exactly: the
variable-length loop does not return True on completion but falls
through to the fixed-arity loop, and the fixed-arity loop indexes
`obj[i]` without a length guard (a `none` models the IndexError). -/
def is_tuple_instance (obj : PyValue) (typ : Typ) : Option Bool :=
  match obj with
  | .tuple xs =>
      match typ with
      | .tuple args =>
          match (if Typ.is_variable_tuple (.tuple args) then
                   match args with
                   | arg :: _ => allLoop arg xs
                   | [] => none -- unreachable: a variable tuple type has arguments
                 else some true) with
          | some true =>
              if xs.isEmpty || Typ.is_bare_tuple (.tuple args) then some true
              else enumLoop xs args
          | r => r
      | _ => some false
  | _ => some false
  termination_by 4 * sizeOf typ + sizeOf obj + 2

/-- The variable-length loop of is_tuple_instance:
`for v in obj: if not is_instance(v, arg): return False`. -/
def allLoop (arg : Typ) (vs : List PyValue) : Option Bool :=
  match vs with
  | [] => some true
  | v :: rest =>
      match is_instance v arg with
      | some true => allLoop arg rest
      | some false => some false
      | .none => none
  termination_by 4 * sizeOf arg + sizeOf vs + 4

/-- The fixed-arity loop of is_tuple_instance:
`for i, arg in enumerate(type_args(typ)): if not is_instance(obj[i], arg):
return False`. Because the index i runs 0, 1, 2, ... over the list of
arguments, indexing `obj[i]` is rendered as walking the value list in
step with the argument list; exhausting the value list first is the
IndexError of the source (`none`). -/
def enumLoop (xs : List PyValue) (ts : List Typ) : Option Bool :=
  match ts with
  | [] => some true
  | a :: rest =>
      match xs with
      | v :: vrest =>
          match is_instance v a with
          | some true => enumLoop vrest rest
          | some false => some false
          | .none => none
      | [] => none
  termination_by 4 * sizeOf ts + sizeOf xs + 1

/-- serde.core.is_dict_instance: only the first key/value pair is
checked. -/
def is_dict_instance (obj : PyValue) (typ : Typ) : Option Bool :=
  match obj with
  | .dict kvs =>
      match typ with
      | .dict okv =>
          if kvs.isEmpty || okv.isNone then some true
          else
            match okv, kvs with
            | some (ktyp, vtyp), (k, v) :: _ =>
                match is_instance k ktyp with
                | some true => is_instance v vtyp
                | some false => some false
                | .none => none
            | _, _ => none -- unreachable: the guard ensures arguments and a pair
      | _ => some false
  | _ => some false
  termination_by 4 * sizeOf typ + sizeOf obj + 2

/-- serde.core.is_generic_instance: recurse on the unparameterized
origin of the generic. -/
def is_generic_instance (obj : PyValue) (typ : Typ) : Option Bool :=
  match typ with
  | .generic t => is_instance obj t
  | _ => none -- unreachable: get_origin of a non-generic is None and isinstance raises
  termination_by 4 * sizeOf typ + sizeOf obj + 2

end

mutual

/-- Modelled from the spec: compat.typename, the canonical display name
of a type descriptor, e.g. List[str] (used by the name mangler). -/
def typename : Typ → String
  | .prim n => n
  | .dataclass n _ => n
  | .opt t => ("Optional[") ++ typename t ++ ("]")
  | .union args => ("Union[") ++ String.intercalate (", ") (typename_list args) ++ ("]")
  | .list (some t) => ("List[") ++ typename t ++ ("]")
  | .list .none => ("List")
  | .set (some t) => ("Set[") ++ typename t ++ ("]")
  | .set .none => ("Set")
  | .tuple args => ("Tuple[") ++ String.intercalate (", ") (typename_list args) ++ ("]")
  | .dict (some (k, v)) => ("Dict[") ++ typename k ++ (", ") ++ typename v ++ ("]")
  | .dict .none => ("Dict")
  | .generic t => typename t
  | .literal _ => ("Literal")
  | .newtype n => n
  | .ellipsis => ("...")

/-- The canonical names of each descriptor in a list. -/
def typename_list : List Typ → List String
  | [] => []
  | t :: ts => typename t :: typename_list ts

end

mutual

/-- Descriptors containing no tuple descriptor anywhere. -/
def tuple_free : Typ → Bool
  | .prim _ => true
  | .dataclass _ _ => true
  | .opt t => tuple_free t
  | .union args => tuple_free_list args
  | .list (some t) => tuple_free t
  | .list .none => true
  | .set (some t) => tuple_free t
  | .set .none => true
  | .tuple _ => false
  | .dict (some (k, v)) => tuple_free k && tuple_free v
  | .dict .none => true
  | .generic t => tuple_free t
  | .literal _ => true
  | .newtype _ => true
  | .ellipsis => true

/-- tuple_free for every member of a list of descriptors. -/
def tuple_free_list : List Typ → Bool
  | [] => true
  | t :: ts => tuple_free t && tuple_free_list ts

end

/-- serde.core.Tagging.Kind. -/
inductive Tagging.Kind where
  | External
  | Internal
  | Adjacent
  | Untagged
deriving DecidableEq

/-- serde.core.Tagging: controls how a union is (de)serialized. -/
structure Tagging where
  tag : Option String
  content : Option String
  kind : Tagging.Kind

def Tagging.is_external (t : Tagging) : Bool :=
  decide (t.kind = Tagging.Kind.External)

def Tagging.is_internal (t : Tagging) : Bool :=
  decide (t.kind = Tagging.Kind.Internal)

def Tagging.is_adjacent (t : Tagging) : Bool :=
  decide (t.kind = Tagging.Kind.Adjacent)

def Tagging.is_untagged (t : Tagging) : Bool :=
  decide (t.kind = Tagging.Kind.Untagged)

/-- serde.core.Tagging.check: raises SerdeError (modelled as
Except.error) exactly as the source: first the Internal test, then the
Adjacent test. -/
def Tagging.check (t : Tagging) : Except String Unit :=
  if t.is_internal && t.tag.isNone then
    Except.error ("\"tag\" must be specified in InternalTagging")
  else if t.is_adjacent && (t.tag.isNone || t.content.isNone) then
    Except.error ("\"tag\" and \"content\" must be specified in AdjacentTagging")
  else Except.ok ()

/-- serde.core.ExternalTagging. -/
def ExternalTagging : Tagging := ⟨Option.none, Option.none, Tagging.Kind.External⟩

/-- serde.core.InternalTagging = functools.partial(Tagging, kind=Internal):
tag and content stay optional. -/
def InternalTagging (tag content : Option String) : Tagging :=
  ⟨tag, content, Tagging.Kind.Internal⟩

/-- serde.core.AdjacentTagging = functools.partial(Tagging, kind=Adjacent). -/
def AdjacentTagging (tag content : Option String) : Tagging :=
  ⟨tag, content, Tagging.Kind.Adjacent⟩

/-- serde.core.Untagged. -/
def Untagged : Tagging := ⟨Option.none, Option.none, Tagging.Kind.Untagged⟩

/-- The provenance of a callable wrapped in a Func: the module-level
skip_if_false helper, the functools.partial of skip_if_default with the
field default bound in, or a user-supplied callable identified by its
name. -/
inductive FuncInner where
  | skip_if_false_fn
  | skip_if_default_fn (default : Option PyValue)
  | user (name : String)

/-- serde.core.Func: function wrapper carrying a mangled name (the
source spells the field `mangeld`). -/
structure Func where
  inner : FuncInner
  mangeld : String

/-- A user-supplied metadata value (for serde_skip_if, serializer,
deserializer): identified by name, with its Python truthiness and
callability recorded. -/
structure PyCallable where
  name : String
  truthy : Bool
  callable : Bool

/-- The serde-recognized entries of a dataclasses.field metadata mapping
(an absent key is none), exactly the keys serde.core.field can set. -/
structure Metadata where
  serde_rename : Option String
  serde_alias : Option (List String)
  serde_skip : Option Bool
  serde_skip_if : Option PyCallable
  serde_skip_if_false : Option Bool
  serde_skip_if_default : Option Bool
  serde_serializer : Option PyCallable
  serde_deserializer : Option PyCallable
  serde_flatten : Option Bool

/-- A dataclasses.Field as consumed by Field.from_dataclass: name,
declared type, default and default_factory (none models
dataclasses.MISSING) and the metadata mapping. -/
structure RawField where
  name : String
  type : Typ
  default : Option PyValue
  default_factory : Option String
  metadata : Metadata

/-- serde.core.Field: the pyserde-specific field descriptor derived from
a dataclasses.Field (named FieldDescriptor as the spec does, since Lean
reserves the name Field; the operations keep their source names
Field.mangle and Field.from_dataclass). The source fields `case` and
`alias` are keywords here and appear as case_policy and alias_list. -/
structure FieldDescriptor where
  type : Typ
  name : Option String
  default : Option PyValue
  default_factory : Option String
  metadata : Metadata
  case_policy : Option String
  alias_list : List String
  rename : Option String
  skip : Option Bool
  skip_if : Option Func
  serializer : Option Func
  deserializer : Option Func
  flatten : Option Bool

/-- serde.core.Field.mangle: the mangled name {field.name}_{name}. -/
def Field.mangle (f : RawField) (name : String) : String :=
  f.name ++ ("_") ++ name

/-- serde.core.Field.from_dataclass. The three candidate skip predicates
are computed and the single skip_if slot receives
`skip_if or skip_if_false_func or skip_if_default_func`. -/
def Field.from_dataclass (f : RawField) : FieldDescriptor :=
  let skip_if_false_func : Option Func :=
    if f.metadata.serde_skip_if_false.getD false then
      some ⟨FuncInner.skip_if_false_fn, Field.mangle f ("skip_if_false")⟩
    else Option.none
  let skip_if_default_func : Option Func :=
    if f.metadata.serde_skip_if_default.getD false then
      some ⟨FuncInner.skip_if_default_fn f.default, Field.mangle f ("skip_if_default")⟩
    else Option.none
  let skip_if : Option Func :=
    match f.metadata.serde_skip_if with
    | some fn =>
        if fn.truthy && fn.callable then
          some ⟨FuncInner.user fn.name, Field.mangle f ("skip_if")⟩
        else Option.none
    | .none => Option.none
  let serializer : Option Func :=
    match f.metadata.serde_serializer with
    | some fn =>
        if fn.truthy then some ⟨FuncInner.user fn.name, Field.mangle f ("serializer")⟩
        else Option.none
    | .none => Option.none
  let deserializer : Option Func :=
    match f.metadata.serde_deserializer with
    | some fn =>
        if fn.truthy then some ⟨FuncInner.user fn.name, Field.mangle f ("deserializer")⟩
        else Option.none
    | .none => Option.none
  { type := f.type
    name := some f.name
    default := f.default
    default_factory := f.default_factory
    metadata := f.metadata
    case_policy := Option.none
    alias_list := f.metadata.serde_alias.getD []
    rename := f.metadata.serde_rename
    skip := f.metadata.serde_skip
    skip_if := (skip_if <|> skip_if_false_func) <|> skip_if_default_func
    serializer := serializer
    deserializer := deserializer
    flatten := f.metadata.serde_flatten }

/-- The regex substitution re.sub replacing every character of the class
outside A-Za-z0-9 by an underscore, as the name mangler applies it
(Char.isAlphanum is exactly the ASCII class A-Za-z0-9). -/
def sub_non_alnum (s : String) : String :=
  s.map (fun c => if c.isAlphanum then c else ('_'))

/-- The sanitizer as the specification words it: every character outside
the class A-Za-z0-9_ (the underscore being kept) becomes an
underscore. -/
def sub_spec (s : String) : String :=
  s.map (fun c => if c.isAlphanum || c == ('_') then c else ('_'))

/-- serde.core.union_func_name: sanitized join of the direction tag and
the canonical names of the union type arguments. -/
def union_func_name (pre : String) (union_args : List Typ) : String :=
  sub_non_alnum (pre ++ ("_") ++ String.intercalate ("_") (union_args.map typename))

/-- Modelled from Python language semantics: the text an f-string
renders a value as (str(a)); containers are abbreviated since the
source only mangles scalar literal values. -/
def pyStr : PyValue → String
  | .none => ("None")
  | .bool b => if b then ("True") else ("False")
  | .int n => toString n
  | .str s => s
  | .list _ => ("<list>")
  | .set _ => ("<set>")
  | .tuple _ => ("<tuple>")
  | .dict _ => ("<dict>")
  | .record (c :: _) _ => ("<") ++ c ++ (">")
  | .record [] _ => ("<object>")

/-- Modelled from Python language semantics: typename(type(a)), the name
of the runtime class of a value. -/
def runtime_type_name : PyValue → String
  | .none => ("NoneType")
  | .bool _ => ("bool")
  | .int _ => ("int")
  | .str _ => ("str")
  | .list _ => ("list")
  | .set _ => ("set")
  | .tuple _ => ("tuple")
  | .dict _ => ("dict")
  | .record (c :: _) _ => c
  | .record [] _ => ("object")

/-- serde.core.literal_func_name (LITERAL_DE_PREFIX is the string
literal_de): sanitized join of each literal value with its runtime type
name. -/
def literal_func_name (literal_args : List PyValue) : String :=
  sub_non_alnum (("literal_de") ++ ("_") ++
    String.intercalate ("_")
      (literal_args.map (fun a => pyStr a ++ ("_") ++ runtime_type_name a)))

/-- A synthetic union wrapper dataclass as made by GlobalScope.add_union
via dataclasses.make_dataclass; uid models the Python object identity
of the freshly created class (and thereby of the Scope attached to
it). -/
structure Wrapper where
  name : String
  uid : Nat

/-- serde.core.GlobalScope: container storing generated wrapper classes
for complex types such as unions; nextUid models the identity supply
for newly created classes. -/
structure GlobalScope where
  classes : List (String × Wrapper)
  nextUid : Nat

/-- serde.core.GlobalScope.get_union: look the wrapper class up under
union_func_name("global", type_args(cls)). -/
def GlobalScope.get_union (gs : GlobalScope) (cls : Typ) : Option Wrapper :=
  gs.classes.lookup (union_func_name ("global") cls.type_args)

/-- serde.core.GlobalScope.add_union: create the wrapper dataclass, run
full serde registration on it (external to this core) and store it
under the mangled name; the dict assignment is modelled as a cons and
lookup finds the newest binding of a key first. -/
def GlobalScope.add_union (gs : GlobalScope) (cls : Typ) : Wrapper × GlobalScope :=
  let class_name := union_func_name ("global") cls.type_args
  let wrapper_dataclass : Wrapper := ⟨class_name, gs.nextUid⟩
  (wrapper_dataclass, ⟨(class_name, wrapper_dataclass) :: gs.classes, gs.nextUid + 1⟩)

/-- Modelled from Python language semantics: truthiness, bool(v). -/
def pyTruthy : PyValue → Bool
  | .none => false
  | .bool b => b
  | .int n => n != 0
  | .str s => !s.isEmpty
  | .list xs => !xs.isEmpty
  | .set xs => !xs.isEmpty
  | .tuple xs => !xs.isEmpty
  | .dict kvs => !kvs.isEmpty
  | .record _ _ => true

/-- Modelled from Python language semantics: calling a builtin class
constructor, typ(obj); none models the call raising (e.g. int of a
non-numeric string) or an unmodelled combination. Note that int(True)
is the int 1, no longer the bool True. -/
def callType : String → PyValue → Option PyValue
  | ("bool"), v => some (.bool (pyTruthy v))
  | ("int"), .bool b => some (.int (if b then 1 else 0))
  | ("int"), .int n => some (.int n)
  | ("int"), .str s => (s.toInt?).map PyValue.int
  | ("str"), v => some (.str (pyStr v))
  | ("list"), .list xs => some (.list xs)
  | ("list"), .tuple xs => some (.list xs)
  | ("list"), .set xs => some (.list xs)
  | ("tuple"), .list xs => some (.tuple xs)
  | ("tuple"), .tuple xs => some (.tuple xs)
  | _, _ => Option.none

/-- serde.core.is_coercible: False only when obj is None. -/
def is_coercible (typ : String) (obj : PyValue) : Bool :=
  match obj with
  | .none => false
  | _ => true

/-- serde.core.coerce: typ(obj) if is_coercible(typ, obj) else obj. -/
def coerce (typ : String) (obj : PyValue) : Option PyValue :=
  if is_coercible typ obj then callType typ obj else some obj

/-- The coercion behaviour as the claim words it: return obj unchanged
when obj is None or already an instance of the declared type, and
construct the declared type from the value otherwise. -/
def coerce_spec (typ : String) (obj : PyValue) : Option PyValue :=
  if obj.is_none then some obj
  else if isinstancePrim obj typ then some obj
  else callType typ obj

theorem is_instance_ellipsis (obj : PyValue) : is_instance obj .ellipsis = some true := by
  simp [is_instance]

theorem is_instance_prim (obj : PyValue) (n : String) :
    is_instance obj (.prim n) = some (isinstancePrim obj n) := by
  simp [is_instance, isinstanceB]

theorem is_instance_union (obj : PyValue) (args : List Typ) :
    is_instance obj (.union args) = unionLoop obj args := by
  simp [is_instance, is_union_instance]

theorem unionLoop_cons (obj : PyValue) (a : Typ) (rest : List Typ) :
    unionLoop obj (a :: rest) =
      match is_instance obj a with
      | some true => some true
      | some false => unionLoop obj rest
      | Option.none => Option.none := by
  simp [unionLoop]

theorem sub_non_alnum_eq_sub_spec (s : String) : sub_non_alnum s = sub_spec s := by
  have hf : (fun c : Char => if c.isAlphanum then c else ('_')) =
      (fun c : Char => if c.isAlphanum || c == ('_') then c else ('_')) := by
    funext c
    by_cases h : c = ('_')
    · subst h
      decide
    · by_cases h2 : c.isAlphanum
      · simp [h2]
      · simp [h2, h]
  unfold sub_non_alnum sub_spec
  rw [hf]

/-- Claim C2: Tagging validation raises exactly when required fields for the
selected kind are missing: Internal with no tag raises the configuration
error, Adjacent missing tag or content raises it, External and Untagged
never raise for any combination of tag and content. -/
theorem tagging_check_requirements (t : Tagging) :
    (t.check = Except.ok () ↔
      ¬ ((t.kind = Tagging.Kind.Internal ∧ t.tag = Option.none) ∨
         (t.kind = Tagging.Kind.Adjacent ∧ (t.tag = Option.none ∨ t.content = Option.none))))
    ∧ (t.kind = Tagging.Kind.Internal → t.tag = Option.none →
        t.check = Except.error ("\"tag\" must be specified in InternalTagging"))
    ∧ (t.kind = Tagging.Kind.Adjacent → (t.tag = Option.none ∨ t.content = Option.none) →
        t.check = Except.error ("\"tag\" and \"content\" must be specified in AdjacentTagging"))
    ∧ ((t.kind = Tagging.Kind.External ∨ t.kind = Tagging.Kind.Untagged) →
        t.check = Except.ok ()) := by
  obtain ⟨tag, content, kind⟩ := t
  cases kind <;> cases tag <;> cases content <;>
    simp [Tagging.check, Tagging.is_internal, Tagging.is_adjacent]

theorem tagging_check_requirements_witness :
    Tagging.check ⟨Option.none, Option.none, Tagging.Kind.Internal⟩ =
      Except.error ("\"tag\" must be specified in InternalTagging") :=
  (tagging_check_requirements ⟨Option.none, Option.none, Tagging.Kind.Internal⟩).2.1 rfl rfl

/-- Claim C3: the registry key is a pure function of the ordered variant type
names, so after add_union on one union type, get_union on any union type
whose ordered variant list has the same canonical names returns the very
wrapper type just registered (and with it its Scope). -/
theorem global_scope_union_dedup (gs : GlobalScope) (args1 args2 : List Typ)
    (h : args1.map typename = args2.map typename) :
    (gs.add_union (.union args1)).2.get_union (.union args2) =
      some (gs.add_union (.union args1)).1 := by
  have hn : union_func_name ("global") (Typ.type_args (.union args2)) =
      union_func_name ("global") (Typ.type_args (.union args1)) := by
    simp [union_func_name, Typ.type_args, h]
  simp [GlobalScope.get_union, GlobalScope.add_union, hn, List.lookup]

theorem global_scope_union_dedup_witness :
    (GlobalScope.add_union ⟨[], 0⟩ (.union [.prim ("int"), .prim ("str")])).2.get_union
        (.union [.prim ("int"), .prim ("str")]) =
      some ((GlobalScope.add_union ⟨[], 0⟩ (.union [.prim ("int"), .prim ("str")])).1) :=
  global_scope_union_dedup ⟨[], 0⟩ _ _ rfl

/-- Claim C8: name mangling is pure and deterministic with the stated
formats; the code strips by the class A-Za-z0-9 and the specification by
A-Za-z0-9_, which agree because an underscore is replaced by itself. -/
theorem mangling_formats :
    (∀ (f : RawField) (purpose : String),
        Field.mangle f purpose = f.name ++ ("_") ++ purpose)
    ∧ (∀ (pre : String) (args : List Typ),
        union_func_name pre args =
          sub_spec (pre ++ ("_") ++ String.intercalate ("_") (args.map typename)))
    ∧ (∀ vals : List PyValue,
        literal_func_name vals =
          sub_spec (("literal_de") ++ ("_") ++
            String.intercalate ("_")
              (vals.map (fun a => pyStr a ++ ("_") ++ runtime_type_name a))))
    ∧ (∀ (f : RawField) (purpose : String),
        Field.mangle f purpose = Field.mangle f purpose)
    ∧ (∀ (pre : String) (args : List Typ),
        union_func_name pre args = union_func_name pre args) := by
  refine ⟨fun f p => rfl, fun pre args => ?_, fun vals => ?_, fun f p => rfl,
    fun pre args => rfl⟩
  · unfold union_func_name
    rw [sub_non_alnum_eq_sub_spec]
  · unfold literal_func_name
    rw [sub_non_alnum_eq_sub_spec]

def emptyMetadata : Metadata :=
  ⟨Option.none, Option.none, Option.none, Option.none, Option.none, Option.none,
   Option.none, Option.none, Option.none⟩

theorem mangling_formats_witness :
    Field.mangle ⟨("id"), .prim ("int"), Option.none, Option.none, emptyMetadata⟩ ("skip_if") =
      ("id_skip_if") := by
  rw [mangling_formats.1]
  rfl

/-- Claim C9 counterexample: the bool True is already an instance of int
(bool subclasses int), yet coerce calls int(True) and hands back the int 1
instead of returning the value unchanged. -/
theorem coerce_counterexample :
    isinstancePrim (.bool true) ("int") = true
    ∧ coerce ("int") (.bool true) = some (.int 1)
    ∧ coerce ("int") (.bool true) ≠ some (.bool true)
    ∧ coerce_spec ("int") (.bool true) = some (.bool true) := by
  refine ⟨rfl, rfl, ?_, rfl⟩
  intro h
  simp [coerce, is_coercible, callType, pyTruthy] at h

/-- Claim C9 amended: coerce returns obj unchanged only when obj is None;
for every non-null value, conformant to the declared type or not, it
builds typ(obj). -/
theorem coerce_amended (typ : String) (obj : PyValue) :
    (obj = PyValue.none → coerce typ obj = some obj)
    ∧ (obj ≠ PyValue.none → coerce typ obj = callType typ obj) := by
  constructor
  · intro h
    subst h
    rfl
  · intro h
    cases obj <;> first | exact absurd rfl h | rfl

theorem coerce_amended_witness :
    coerce ("int") (.bool true) = callType ("int") (.bool true) :=
  (coerce_amended ("int") (.bool true)).2 (by intro h; exact PyValue.noConfusion h)

/-- Whether an explicit, callable, truthy serde_skip_if entry is present. -/
def has_explicit_skip_if (f : RawField) : Bool :=
  match f.metadata.serde_skip_if with
  | some fn => fn.truthy && fn.callable
  | .none => false

/-- Claim C7: at most one skip predicate is materialized into the single
skip_if slot, the explicit predicate winning over skip-on-false, which
wins over skip-on-default-equal; with no candidate the slot stays empty. -/
theorem skip_if_priority (f : RawField) :
    (∀ fn : PyCallable,
        f.metadata.serde_skip_if = some fn → (fn.truthy && fn.callable) = true →
        (Field.from_dataclass f).skip_if =
          some ⟨FuncInner.user fn.name, Field.mangle f ("skip_if")⟩)
    ∧ (has_explicit_skip_if f = false → f.metadata.serde_skip_if_false.getD false = true →
        (Field.from_dataclass f).skip_if =
          some ⟨FuncInner.skip_if_false_fn, Field.mangle f ("skip_if_false")⟩)
    ∧ (has_explicit_skip_if f = false → f.metadata.serde_skip_if_false.getD false = false →
        f.metadata.serde_skip_if_default.getD false = true →
        (Field.from_dataclass f).skip_if =
          some ⟨FuncInner.skip_if_default_fn f.default, Field.mangle f ("skip_if_default")⟩)
    ∧ (has_explicit_skip_if f = false → f.metadata.serde_skip_if_false.getD false = false →
        f.metadata.serde_skip_if_default.getD false = false →
        (Field.from_dataclass f).skip_if = Option.none) := by
  refine ⟨?_, ?_, ?_, ?_⟩
  · intro fn h1 h2
    simp [Field.from_dataclass, h1, h2]
  · intro h1 h2
    unfold has_explicit_skip_if at h1
    rcases h3 : f.metadata.serde_skip_if with _ | ⟨fname, ft, fc⟩
    · simp [Field.from_dataclass, h3, h2]
    · rw [h3] at h1
      simp at h1
      cases ft <;> cases fc <;> simp_all [Field.from_dataclass, h3, h2]
  · intro h1 h2 h4
    unfold has_explicit_skip_if at h1
    rcases h3 : f.metadata.serde_skip_if with _ | ⟨fname, ft, fc⟩
    · simp [Field.from_dataclass, h3, h2, h4]
    · rw [h3] at h1
      simp at h1
      cases ft <;> cases fc <;> simp_all [Field.from_dataclass, h3, h2, h4]
  · intro h1 h2 h4
    unfold has_explicit_skip_if at h1
    rcases h3 : f.metadata.serde_skip_if with _ | ⟨fname, ft, fc⟩
    · simp [Field.from_dataclass, h3, h2, h4]
    · rw [h3] at h1
      simp at h1
      cases ft <;> cases fc <;> simp_all [Field.from_dataclass, h3, h2, h4]

def rawFieldBoth : RawField :=
  ⟨("v"), .prim ("int"), Option.none, Option.none,
    ⟨Option.none, Option.none, Option.none, some ⟨("pred"), true, true⟩, some true,
     Option.none, Option.none, Option.none, Option.none⟩⟩

theorem skip_if_priority_witness :
    (Field.from_dataclass rawFieldBoth).skip_if =
      some ⟨FuncInner.user ("pred"), ("v_skip_if")⟩ :=
  (skip_if_priority rawFieldBoth).1 ⟨("pred"), true, true⟩ rfl rfl

/-- Claim C10: in the record branch the nominal isinstance check is
necessary for a true verdict with or without a registered typecheck
function, and a raising typecheck forces a false verdict regardless of
the nominal check. -/
theorem record_branch_nominal (obj : PyValue) (nm : String) :
    (∀ sc : Option (PyValue → Bool),
        is_instance obj (.dataclass nm sc) = some true →
        isinstanceB obj (.dataclass nm sc) = true)
    ∧ is_instance obj (.dataclass nm Option.none) =
        some (isinstanceB obj (.dataclass nm Option.none))
    ∧ (∀ tc : PyValue → Bool, tc obj = true →
        is_instance obj (.dataclass nm (some tc)) =
          some (isinstanceB obj (.dataclass nm (some tc))))
    ∧ (∀ tc : PyValue → Bool, tc obj = false →
        is_instance obj (.dataclass nm (some tc)) = some false) := by
  refine ⟨?_, by simp [is_instance], ?_, ?_⟩
  · intro sc h
    rcases sc with _ | tc
    · simp [is_instance] at h
      exact h
    · rcases htc : tc obj with _ | _
      · simp [is_instance, htc] at h
      · simp [is_instance, htc] at h
        exact h
  · intro tc htc
    simp [is_instance, htc]
  · intro tc htc
    simp [is_instance, htc]

theorem record_branch_nominal_witness :
    is_instance (.int 0) (.dataclass ("Foo") (some (fun _ => false))) = some false :=
  (record_branch_nominal (.int 0) ("Foo")).2.2.2 (fun _ => false) rfl

/-- Claim C5: the list check samples only index 0: for a non-empty list the
verdict is exactly the verdict on the head element against the element
type, the empty list matches any list type, and the documented pair of
concrete examples behaves as documented. -/
theorem list_check_samples_head :
    (∀ (x : PyValue) (xs : List PyValue) (t : Typ),
        is_instance (.list (x :: xs)) (.list (some t)) = is_instance x t)
    ∧ (∀ ot : Option Typ, is_instance (.list []) (.list ot) = some true)
    ∧ is_instance (.list [.int 1, .str ("x")]) (.list (some (.prim ("int")))) = some true
    ∧ is_instance (.list [.str ("x"), .int 1]) (.list (some (.prim ("int")))) = some false := by
  refine ⟨?_, ?_, ?_, ?_⟩
  · intro x xs t
    simp [is_instance, is_list_instance]
  · intro ot
    cases ot <;> simp [is_instance, is_list_instance]
  · simp [is_instance, is_list_instance, isinstanceB, isinstancePrim, classNamesOf]
  · simp [is_instance, is_list_instance, isinstanceB, isinstancePrim, classNamesOf]

theorem list_check_samples_head_witness :
    is_instance (.list [.bool true]) (.list (some (.prim ("bool")))) =
      is_instance (.bool true) (.prim ("bool")) :=
  list_check_samples_head.1 (.bool true) [] (.prim ("bool"))

theorem unionLoop_some_true_iff (obj : PyValue) :
    ∀ ts : List Typ,
      (unionLoop obj ts = some true ↔
        ∃ l1 t l2, ts = l1 ++ t :: l2 ∧ (∀ u ∈ l1, is_instance obj u = some false) ∧
          is_instance obj t = some true) := by
  intro ts
  induction ts with
  | nil =>
      constructor
      · intro h
        simp [unionLoop] at h
      · rintro ⟨l1, t, l2, h, -, -⟩
        rcases l1 with _ | ⟨a, l1⟩ <;> simp at h
  | cons a rest ih =>
      rw [unionLoop_cons]
      constructor
      · intro h
        rcases hv : is_instance obj a with _ | b
        · rw [hv] at h
          simp at h
        · rcases b with _ | _
          · rw [hv] at h
            simp at h
            rcases ih.mp h with ⟨l1, t, l2, hdec, hall, ht⟩
            refine ⟨a :: l1, t, l2, by rw [hdec]; rfl, ?_, ht⟩
            intro u hu
            rcases List.mem_cons.mp hu with h1 | h2
            · rw [h1]
              exact hv
            · exact hall u h2
          · exact ⟨[], a, rest, rfl, by simp, hv⟩
      · rintro ⟨l1, t, l2, hdec, hall, ht⟩
        rcases l1 with _ | ⟨b, l1⟩
        · simp at hdec
          rw [hdec.1, ht]
        · simp at hdec
          have hb : is_instance obj b = some false := hall b (by simp)
          rw [hdec.1, hb]
          show unionLoop obj rest = some true
          exact ih.mpr ⟨l1, t, l2, hdec.2, fun u hu => hall u (by simp [hu]), ht⟩

/-- Claim C4 counterexample: for the value (1,) and the union of the tuple
type Tuple[int, str] with the plain class tuple, the first variant check
raises (IndexError, embedded as none) and the scan aborts, although the
second listed variant matches, so the check does not return true even
though some variant matches. -/
theorem union_first_match_counterexample :
    is_instance (.tuple [.int 1])
        (.union [.tuple [.prim ("int"), .prim ("str")], .prim ("tuple")]) = Option.none
    ∧ is_instance (.tuple [.int 1]) (.prim ("tuple")) = some true := by
  constructor
  · simp [is_instance, is_union_instance, unionLoop, is_tuple_instance, enumLoop, allLoop,
          Typ.is_variable_tuple, Typ.is_bare_tuple, isinstanceB, isinstancePrim, classNamesOf]
  · simp [is_instance, isinstanceB, isinstancePrim, classNamesOf]

/-- Claim C4 amended: the union check returns true exactly when some variant
matches and every variant listed before it returns false (first-match in
declaration order; a variant whose check raises aborts the scan before
later variants are tried); in particular for Union(bool, int) the value
True matches via the first listed variant bool. -/
theorem union_first_match_amended (obj : PyValue) (args : List Typ) :
    (is_instance obj (.union args) = some true ↔
      ∃ l1 t l2, args = l1 ++ t :: l2 ∧ (∀ u ∈ l1, is_instance obj u = some false) ∧
        is_instance obj t = some true)
    ∧ is_instance (.bool true) (.union [.prim ("bool"), .prim ("int")]) = some true
    ∧ is_instance (.bool true) (.prim ("bool")) = some true := by
  refine ⟨?_, ?_, ?_⟩
  · rw [is_instance_union]
    exact unionLoop_some_true_iff obj args
  · simp [is_instance, is_union_instance, unionLoop, isinstanceB, isinstancePrim, classNamesOf]
  · simp [is_instance, isinstanceB, isinstancePrim, classNamesOf]

theorem union_first_match_amended_witness :
    is_instance (.str ("s")) (.union [.prim ("int"), .prim ("str")]) = some true :=
  (union_first_match_amended (.str ("s")) [.prim ("int"), .prim ("str")]).1.mpr
    ⟨[.prim ("int")], .prim ("str"), [], rfl,
     by
       intro u hu
       simp at hu
       rw [hu]
       simp [is_instance, isinstanceB, isinstancePrim, classNamesOf],
     by simp [is_instance, isinstanceB, isinstancePrim, classNamesOf]⟩

theorem allLoop_cons (arg : Typ) (v : PyValue) (rest : List PyValue) :
    allLoop arg (v :: rest) =
      match is_instance v arg with
      | some true => allLoop arg rest
      | some false => some false
      | Option.none => Option.none := by
  simp [allLoop]

theorem allLoop_some_true_iff (arg : Typ) :
    ∀ vs : List PyValue,
      (allLoop arg vs = some true ↔ ∀ v ∈ vs, is_instance v arg = some true) := by
  intro vs
  induction vs with
  | nil => simp [allLoop]
  | cons v rest ih =>
      rw [allLoop_cons]
      rcases hv : is_instance v arg with _ | b
      · simp [hv]
      · rcases b with _ | _
        · simp [hv]
        · simp [hv, ih]

theorem enumLoop_some_true_iff :
    ∀ (ts : List Typ) (xs : List PyValue), ts.length ≤ xs.length →
      (enumLoop xs ts = some true ↔
        ∀ p ∈ (xs.take ts.length).zip ts, is_instance p.1 p.2 = some true) := by
  intro ts
  induction ts with
  | nil =>
      intro xs h
      simp [enumLoop]
  | cons a rest ih =>
      intro xs h
      rcases xs with _ | ⟨v, vrest⟩
      · simp at h
      · have h2 : rest.length ≤ vrest.length := by simpa using h
        rw [show enumLoop (v :: vrest) (a :: rest) =
              (match is_instance v a with
               | some true => enumLoop vrest rest
               | some false => some false
               | Option.none => Option.none) from by simp [enumLoop]]
        rcases hv : is_instance v a with _ | b
        · simp [hv]
        · rcases b with _ | _
          · simp [hv]
          · simp [hv, ih vrest h2]

theorem enumLoop_short :
    ∀ (ts : List Typ) (xs : List PyValue), xs.length < ts.length →
      (enumLoop xs ts = some false ∨ enumLoop xs ts = Option.none) := by
  intro ts
  induction ts with
  | nil =>
      intro xs h
      simp at h
  | cons a rest ih =>
      intro xs h
      rcases xs with _ | ⟨v, vrest⟩
      · right
        simp [enumLoop]
      · have h2 : vrest.length < rest.length := by
          simp at h
          omega
        rw [show enumLoop (v :: vrest) (a :: rest) =
              (match is_instance v a with
               | some true => enumLoop vrest rest
               | some false => some false
               | Option.none => Option.none) from by simp [enumLoop]]
        rcases hv : is_instance v a with _ | b
        · right
          rfl
        · rcases b with _ | _
          · left
            rfl
          · show enumLoop vrest rest = some false ∨ enumLoop vrest rest = Option.none
            exact ih vrest h2

/-- Claim C6 counterexample: the tuple (1, a, 2) of length 3 is accepted
against the fixed-arity type Tuple[int, str] of arity 2 because the
fixed-arity loop only inspects as many positions as there are declared
arguments, so length equality is not required by the code; and against
the variable-length type Tuple[int, ...] the matching one-element tuple
(1,) raises IndexError (none) instead of returning true, because the
variable loop falls through into the fixed-arity loop which reads
obj[1]. -/
theorem tuple_check_counterexample :
    (is_instance (.tuple [.int 1, .str ("a"), .int 2])
        (.tuple [.prim ("int"), .prim ("str")]) = some true
     ∧ [PyValue.int 1, .str ("a"), .int 2].length ≠ [Typ.prim ("int"), .prim ("str")].length)
    ∧ (is_instance (.tuple [.int 1]) (.tuple [.prim ("int"), .ellipsis]) = Option.none
       ∧ is_instance (.int 1) (.prim ("int")) = some true) := by
  refine ⟨⟨?_, by decide⟩, ?_, ?_⟩
  · simp [is_instance, is_tuple_instance, enumLoop, allLoop, Typ.is_variable_tuple,
          Typ.is_bare_tuple, isinstanceB, isinstancePrim, classNamesOf]
  · simp [is_instance, is_tuple_instance, enumLoop, allLoop, Typ.is_variable_tuple,
          Typ.is_bare_tuple, isinstanceB, isinstancePrim, classNamesOf]
  · simp [is_instance, isinstanceB, isinstancePrim, classNamesOf]

/-- Claim C6 amended: for a fixed-arity tuple type the check returns true
iff the value has at least as many elements as the declared arity and each
declared position matches (excess elements are ignored, so length equality
is not required); the empty tuple is accepted against every tuple type; a
non-empty tuple shorter than the declared fixed arity returns false or
raises IndexError; for a variable-length tuple type every element must
match the element type, except that a matching one-element tuple raises
IndexError instead of returning true (the variable loop falls through
into the fixed-arity loop). -/
theorem tuple_check_amended :
    (∀ (xs : List PyValue) (args : List Typ),
        Typ.is_variable_tuple (.tuple args) = false →
        args.length ≤ xs.length →
        (is_instance (.tuple xs) (.tuple args) = some true ↔
          ∀ p ∈ (xs.take args.length).zip args, is_instance p.1 p.2 = some true))
    ∧ (∀ (xs : List PyValue) (t : Typ),
        xs.length ≠ 1 →
        (is_instance (.tuple xs) (.tuple [t, .ellipsis]) = some true ↔
          ∀ v ∈ xs, is_instance v t = some true))
    ∧ (∀ args : List Typ, is_instance (.tuple []) (.tuple args) = some true)
    ∧ (∀ (xs : List PyValue) (args : List Typ),
        Typ.is_variable_tuple (.tuple args) = false →
        xs ≠ [] → xs.length < args.length →
        (is_instance (.tuple xs) (.tuple args) = some false ∨
         is_instance (.tuple xs) (.tuple args) = Option.none))
    ∧ (∀ (v : PyValue) (t : Typ), is_instance v t = some true →
        is_instance (.tuple [v]) (.tuple [t, .ellipsis]) = Option.none) := by
  refine ⟨?_, ?_, ?_, ?_, ?_⟩
  · intro xs args hvar hlen
    rcases args with _ | ⟨a, arest⟩
    · have hbase : is_instance (.tuple xs) (.tuple []) = some true := by
        simp [is_instance, is_tuple_instance, Typ.is_variable_tuple, Typ.is_bare_tuple]
      rw [hbase]
      simp
    · rcases xs with _ | ⟨v, vrest⟩
      · simp at hlen
      · have hb : Typ.is_bare_tuple (.tuple (a :: arest)) = false := rfl
        have hstep : is_instance (.tuple (v :: vrest)) (.tuple (a :: arest)) =
            enumLoop (v :: vrest) (a :: arest) := by
          simp [is_instance, is_tuple_instance, hvar, hb]
        rw [hstep]
        exact enumLoop_some_true_iff (a :: arest) (v :: vrest) hlen
  · intro xs t hlen1
    have hvar : Typ.is_variable_tuple (.tuple [t, .ellipsis]) = true := rfl
    have hstep : is_instance (.tuple xs) (.tuple [t, .ellipsis]) =
        (match allLoop t xs with
         | some true =>
             if xs.isEmpty || Typ.is_bare_tuple (.tuple [t, .ellipsis]) then some true
             else enumLoop xs [t, .ellipsis]
         | r => r) := by
      simp [is_instance, is_tuple_instance, hvar]
    rw [hstep]
    rcases hall : allLoop t xs with _ | b
    · constructor
      · intro hc
        exact Option.noConfusion hc
      · intro hforall
        have hc := (allLoop_some_true_iff t xs).mpr hforall
        rw [hall] at hc
        exact Option.noConfusion hc
    · rcases b with _ | _
      · constructor
        · intro hc
          simp at hc
        · intro hforall
          have hc := (allLoop_some_true_iff t xs).mpr hforall
          rw [hall] at hc
          simp at hc
      · have hforall := (allLoop_some_true_iff t xs).mp hall
        rcases xs with _ | ⟨v1, vrest⟩
        · simp
        · rcases vrest with _ | ⟨v2, vrest2⟩
          · simp at hlen1
          · have h1 : is_instance v1 t = some true := hforall v1 (by simp)
            have he : enumLoop (v1 :: v2 :: vrest2) [t, .ellipsis] = some true := by
              simp [enumLoop, h1, is_instance_ellipsis]
            constructor
            · intro _
              exact hforall
            · intro _
              simp [he, Typ.is_bare_tuple]
  · intro args
    rcases args with _ | ⟨a, arest⟩
    · simp [is_instance, is_tuple_instance, Typ.is_variable_tuple, Typ.is_bare_tuple]
    · rcases hv : Typ.is_variable_tuple (.tuple (a :: arest)) with _ | _
      · simp [is_instance, is_tuple_instance, hv]
      · simp [is_instance, is_tuple_instance, hv, allLoop]
  · intro xs args hvar hne hlt
    rcases args with _ | ⟨a, arest⟩
    · simp at hlt
    · rcases xs with _ | ⟨v, vrest⟩
      · exact absurd rfl hne
      · have hb : Typ.is_bare_tuple (.tuple (a :: arest)) = false := rfl
        have hstep : is_instance (.tuple (v :: vrest)) (.tuple (a :: arest)) =
            enumLoop (v :: vrest) (a :: arest) := by
          simp [is_instance, is_tuple_instance, hvar, hb]
        rw [hstep]
        exact enumLoop_short (a :: arest) (v :: vrest) hlt
  · intro v t hvt
    simp [is_instance, is_tuple_instance, Typ.is_variable_tuple, Typ.is_bare_tuple,
          allLoop, enumLoop, hvt]

theorem tuple_check_amended_witness :
    is_instance (.tuple [.int 1, .str ("a")]) (.tuple [.prim ("int"), .prim ("str")]) =
        some true ↔
      ∀ p ∈ ([PyValue.int 1, .str ("a")].take 2).zip [Typ.prim ("int"), .prim ("str")],
        is_instance p.1 p.2 = some true :=
  tuple_check_amended.1 [.int 1, .str ("a")] [.prim ("int"), .prim ("str")]
    (by decide) (by decide)

theorem tuple_free_list_mem :
    ∀ ts : List Typ, tuple_free_list ts = true → ∀ t ∈ ts, tuple_free t = true := by
  intro ts
  induction ts with
  | nil =>
      intro _ t ht
      simp at ht
  | cons a rest ih =>
      intro h t ht
      rw [show tuple_free_list (a :: rest) = (tuple_free a && tuple_free_list rest) from by
            simp [tuple_free_list]] at h
      rw [Bool.and_eq_true] at h
      rcases List.mem_cons.mp ht with h1 | h2
      · rw [h1]
        exact h.1
      · exact ih h.2 t h2

theorem unionLoop_isSome (obj : PyValue) :
    ∀ ts : List Typ, (∀ u ∈ ts, (is_instance obj u).isSome = true) →
      (unionLoop obj ts).isSome = true := by
  intro ts
  induction ts with
  | nil =>
      intro _
      simp [unionLoop]
  | cons a rest ih =>
      intro h
      rw [unionLoop_cons]
      rcases hv : is_instance obj a with _ | b
      · have hsome := h a (by simp)
        rw [hv] at hsome
        simp at hsome
      · rcases b with _ | _
        · simpa using ih (fun u hu => h u (by simp [hu]))
        · simp

theorem is_instance_isSome_aux :
    ∀ (n : Nat) (typ : Typ), sizeOf typ ≤ n → tuple_free typ = true →
      ∀ obj : PyValue, (is_instance obj typ).isSome = true := by
  intro n
  induction n with
  | zero =>
      intro typ hsz
      exfalso
      have hpos : 0 < sizeOf typ := by
        cases typ <;> simp_arith
      omega
  | succ n ih =>
      intro typ hsz hfree obj
      cases typ with
      | prim nm => simp [is_instance]
      | dataclass nm sc =>
          rcases sc with _ | tc
          · simp [is_instance]
          · rcases htc : tc obj with _ | _ <;> simp [is_instance, htc]
      | opt t =>
          have hf : tuple_free t = true := by simpa [tuple_free] using hfree
          have hs : sizeOf t ≤ n := by
            simp_arith at hsz
            omega
          rcases hno : obj.is_none with _ | _
          · rw [show is_instance obj (.opt t) = is_instance obj t from by
                  simp [is_instance, is_opt_instance, hno]]
            exact ih t hs hf obj
          · simp [is_instance, is_opt_instance, hno]
      | union args =>
          have hf : tuple_free_list args = true := by simpa [tuple_free] using hfree
          have hs : sizeOf args ≤ n := by
            simp_arith at hsz
            omega
          rw [show is_instance obj (.union args) = unionLoop obj args from by
                simp [is_instance, is_union_instance]]
          apply unionLoop_isSome
          intro u hu
          have h1 : sizeOf u < sizeOf args := List.sizeOf_lt_of_mem hu
          exact ih u (by omega) (tuple_free_list_mem args hf u hu) obj
      | list oarg =>
          rcases oarg with _ | t
          · cases obj <;> simp [is_instance, is_list_instance]
          · have hf : tuple_free t = true := by simpa [tuple_free] using hfree
            have hs : sizeOf t ≤ n := by
              simp_arith at hsz
              omega
            cases obj with
            | list xs =>
                rcases xs with _ | ⟨x, xrest⟩
                · simp [is_instance, is_list_instance]
                · rw [show is_instance (.list (x :: xrest)) (.list (some t)) =
                        is_instance x t from by simp [is_instance, is_list_instance]]
                  exact ih t hs hf x
            | none => simp [is_instance, is_list_instance]
            | bool b => simp [is_instance, is_list_instance]
            | int n2 => simp [is_instance, is_list_instance]
            | str s => simp [is_instance, is_list_instance]
            | set xs => simp [is_instance, is_list_instance]
            | tuple xs => simp [is_instance, is_list_instance]
            | dict kvs => simp [is_instance, is_list_instance]
            | record cs fs => simp [is_instance, is_list_instance]
      | set oarg =>
          rcases oarg with _ | t
          · cases obj <;> simp [is_instance, is_set_instance]
          · have hf : tuple_free t = true := by simpa [tuple_free] using hfree
            have hs : sizeOf t ≤ n := by
              simp_arith at hsz
              omega
            cases obj with
            | set xs =>
                rcases xs with _ | ⟨x, xrest⟩
                · simp [is_instance, is_set_instance]
                · rw [show is_instance (.set (x :: xrest)) (.set (some t)) =
                        is_instance x t from by simp [is_instance, is_set_instance]]
                  exact ih t hs hf x
            | none => simp [is_instance, is_set_instance]
            | bool b => simp [is_instance, is_set_instance]
            | int n2 => simp [is_instance, is_set_instance]
            | str s => simp [is_instance, is_set_instance]
            | list xs => simp [is_instance, is_set_instance]
            | tuple xs => simp [is_instance, is_set_instance]
            | dict kvs => simp [is_instance, is_set_instance]
            | record cs fs => simp [is_instance, is_set_instance]
      | tuple args =>
          simp [tuple_free] at hfree
      | dict okv =>
          rcases okv with _ | ⟨k, v⟩
          · cases obj <;> simp [is_instance, is_dict_instance]
          · have hfkv : tuple_free k = true ∧ tuple_free v = true := by
              simpa [tuple_free] using hfree
            have hskv : sizeOf k ≤ n ∧ sizeOf v ≤ n := by
              simp_arith at hsz
              omega
            cases obj with
            | dict kvs =>
                rcases kvs with _ | ⟨⟨k0, v0⟩, rest⟩
                · simp [is_instance, is_dict_instance]
                · rw [show is_instance (.dict (⟨k0, v0⟩ :: rest)) (.dict (some (k, v))) =
                        (match is_instance k0 k with
                         | some true => is_instance v0 v
                         | some false => some false
                         | Option.none => Option.none) from by
                      simp [is_instance, is_dict_instance]]
                  have h1 := ih k hskv.1 hfkv.1 k0
                  rcases hk : is_instance k0 k with _ | bk
                  · rw [hk] at h1
                    simp at h1
                  · rcases bk with _ | _
                    · simp
                    · simpa using ih v hskv.2 hfkv.2 v0
            | none => simp [is_instance, is_dict_instance]
            | bool b => simp [is_instance, is_dict_instance]
            | int n2 => simp [is_instance, is_dict_instance]
            | str s => simp [is_instance, is_dict_instance]
            | list xs => simp [is_instance, is_dict_instance]
            | set xs => simp [is_instance, is_dict_instance]
            | tuple xs => simp [is_instance, is_dict_instance]
            | record cs fs => simp [is_instance, is_dict_instance]
      | generic t =>
          have hf : tuple_free t = true := by simpa [tuple_free] using hfree
          have hs : sizeOf t ≤ n := by
            simp_arith at hsz
            omega
          rw [show is_instance obj (.generic t) = is_instance obj t from by
                simp [is_instance, is_generic_instance]]
          exact ih t hs hf obj
      | literal vals => simp [is_instance]
      | newtype base => simp [is_instance]
      | ellipsis => simp [is_instance]

/-- Claim C1 counterexample: checking the tuple (1,) against the
fixed-arity type Tuple[int, str] raises IndexError (embedded as none):
the fixed-arity loop reads obj[1] which does not exist, so is_instance
is not total. -/
theorem is_instance_raises_counterexample :
    is_instance (.tuple [.int 1]) (.tuple [.prim ("int"), .prim ("str")]) = Option.none := by
  simp [is_instance, is_tuple_instance, enumLoop, allLoop, Typ.is_variable_tuple,
        Typ.is_bare_tuple, isinstanceB, isinstancePrim, classNamesOf]

/-- Claim C1 amended: is_instance returns a boolean and never raises for
every value and every descriptor containing no tuple type; tuple checks
can raise IndexError when the tuple value is shorter than the declared
argument list (fixed arity larger than the value length, or the
variable-length fall-through on a matching one-element tuple). -/
theorem is_instance_total_tuple_free (typ : Typ) (hfree : tuple_free typ = true)
    (obj : PyValue) : (is_instance obj typ).isSome = true :=
  is_instance_isSome_aux (sizeOf typ) typ le_rfl hfree obj

theorem is_instance_total_tuple_free_witness :
    (is_instance (.str ("hello")) (.list (some (.prim ("int"))))).isSome = true :=
  is_instance_total_tuple_free (.list (some (.prim ("int"))))
    (by simp [tuple_free]) (.str ("hello"))
